import Mathlib

/-!
Shallow embedding of the lesson/exercise progression logic of the levelup
repository: the `LessonNavigation` prev/next resolver and the `IdeComponent`
exercise progression tracker (attempt counter, solution reveal flag,
completion counter, completion dialog effect).
-/

namespace LevelUp

/-! ### Lesson navigation resolver (`LessonNavigation` component)

The fetched JSON records have at least the fields `id`, `index`, `name`.
-/

structure Lesson where
  id : String
  index : Int
  name : String
deriving Repr, DecidableEq

/-- JavaScript array read `data[i]`: a negative or out-of-range subscript
yields `undefined`, modelled as `none`. -/
def jsGet (data : List Lesson) (i : Int) : Option Lesson :=
  if i < 0 then none else data.get? i.toNat

/-- The prev/next computation of `LessonNavigation`:
`data.find(lesson => lesson.id === lessonId)` is a linear scan; on a missing
match the source dereferences `undefined` and throws, modelled as `none`.
Otherwise `currentLessonIndex = found.index - 1`, and
`prevLesson`/`nextLesson` are read off by array subscripting guarded by
`currentLessonIndex > 0` and `currentLessonIndex < data.length - 1`. -/
def resolve (data : List Lesson) (lessonId : String) :
    Option (Option Lesson × Option Lesson) :=
  match data.find? (fun lesson => lesson.id == lessonId) with
  | none => none
  | some lesson =>
    let currentLessonIndex : Int := lesson.index - 1
    let prevLesson : Option Lesson :=
      if currentLessonIndex > 0 then jsGet data (currentLessonIndex - 1) else none
    let nextLesson : Option Lesson :=
      if currentLessonIndex < (data.length : Int) - 1 then
        jsGet data (currentLessonIndex + 1)
      else none
    some (prevLesson, nextLesson)

/-! ### JavaScript string builtins used by `submissionHandler`

`exercise.replace("exercise", "")` replaces the first occurrence of the
pattern; `parseInt(s)` skips leading whitespace, reads an optional sign,
then the longest run of digits (hexadecimal after a `0x`/`0X` prefix,
decimal otherwise), and yields `NaN` (modelled `none`) when no digit
follows.
-/

def digitVal (c : Char) : Option Nat :=
  if '0' ≤ c ∧ c ≤ '9' then some (c.toNat - '0'.toNat) else none

def hexVal (c : Char) : Option Nat :=
  if '0' ≤ c ∧ c ≤ '9' then some (c.toNat - '0'.toNat)
  else if 'a' ≤ c ∧ c ≤ 'f' then some (c.toNat - 'a'.toNat + 10)
  else if 'A' ≤ c ∧ c ≤ 'F' then some (c.toNat - 'A'.toNat + 10)
  else none

/-- Accumulate the value of the longest run of digits at the head of the
list, starting from `acc`. -/
def accDigits (val : Char → Option Nat) (radix : Nat) : Nat → List Char → Nat
  | acc, [] => acc
  | acc, c :: cs =>
    match val c with
    | some d => accDigits val radix (acc * radix + d) cs
    | none => acc

/-- `parseInt` after whitespace and sign have been consumed. -/
def jsParseIntBody (sign : Int) : List Char → Option Int
  | '0' :: 'x' :: c :: cs =>
    match hexVal c with
    | some d => some (sign * (accDigits hexVal 16 d cs : Int))
    | none => none
  | '0' :: 'X' :: c :: cs =>
    match hexVal c with
    | some d => some (sign * (accDigits hexVal 16 d cs : Int))
    | none => none
  | ['0', 'x'] => none
  | ['0', 'X'] => none
  | c :: cs =>
    match digitVal c with
    | some d => some (sign * (accDigits digitVal 10 d cs : Int))
    | none => none
  | [] => none

/-- JavaScript `parseInt(s)` with the default radix; `none` models `NaN`. -/
def jsParseInt (s : String) : Option Int :=
  match s.toList.dropWhile (fun c => c == ' ' || c == '\t' || c == '\n' || c == '\r') with
  | '-' :: rest => jsParseIntBody (-1) rest
  | '+' :: rest => jsParseIntBody 1 rest
  | rest => jsParseIntBody 1 rest

def matchesAt : List Char → List Char → Bool
  | [], _ => true
  | _ :: _, [] => false
  | p :: ps, c :: cs => p == c && matchesAt ps cs

/-- JavaScript `s.replace(pat, "")` for a nonempty string pattern: drop the
first occurrence of `pat`, leave the string unchanged when `pat` does not
occur. -/
def removeFirst (pat : List Char) : List Char → List Char
  | [] => []
  | c :: cs =>
    if matchesAt pat (c :: cs) then (c :: cs).drop pat.length
    else c :: removeFirst pat cs

/-- `parseInt(exercise.replace("exercise", ""))` from `submissionHandler`. -/
def exerciseNumber (exercise : String) : Option Int :=
  jsParseInt (String.mk (removeFirst "exercise".toList exercise.toList))

/-! ### Exercise progression tracker (`IdeComponent`)

The component state relevant to the tracker: `tries`, `solutionViewer`,
`showSolutionButton`, `completedExerciseNumber`, `isModalOpen`, with the
initial values of the `useState` calls. The `useEffect` keyed on
`completedExerciseNumber` opens the completion dialog when the counter has
changed between renders and the new value is 5; React skips the effect (and
the render) when a state setter stores an identical value, so the effect is
re-run exactly on a change of the counter.
-/

structure TrackerState where
  tries : Nat
  solutionViewer : Bool
  showSolutionButton : Bool
  completedExerciseNumber : Int
  isModalOpen : Bool
deriving Repr, DecidableEq

def initialState : TrackerState :=
  { tries := 0, solutionViewer := false, showSolutionButton := false,
    completedExerciseNumber := 0, isModalOpen := false }

/-- Result of one event-handler invocation: the committed state, the list of
`onComplete(index)` calls made, and whether the completion-dialog effect
fired on this step. -/
structure StepResult where
  state : TrackerState
  onCompleteCalls : List Int
  lessonFinished : Bool
deriving Repr, DecidableEq

/-- The `useEffect` keyed on `completedExerciseNumber`: runs when the counter
changed from the previous committed state, and opens the modal when the new
value is 5. Returns the state after the effect and whether the dialog-open
signal fired. -/
def applyCompletionEffect (old new : TrackerState) : TrackerState × Bool :=
  if new.completedExerciseNumber ≠ old.completedExerciseNumber ∧
      new.completedExerciseNumber = 5 then
    ({ new with isModalOpen := true }, true)
  else (new, false)

/-- `submissionHandler(isCorrect)` of `IdeComponent`, for the current
`exercise` prop, together with the subsequent completion effect. -/
def submissionHandler (exercise : String) (isCorrect : Bool)
    (s : TrackerState) : StepResult :=
  if isCorrect then
    let upd : TrackerState × List Int :=
      match exerciseNumber exercise with
      | some currentExerciseNumber =>
        if currentExerciseNumber > s.completedExerciseNumber then
          ({ s with completedExerciseNumber := currentExerciseNumber },
            [currentExerciseNumber])
        else (s, [])
      | none => (s, [])
    let s1 : TrackerState := { upd.1 with solutionViewer := false, tries := 0 }
    let eff := applyCompletionEffect s s1
    { state := eff.1, onCompleteCalls := upd.2, lessonFinished := eff.2 }
  else
    let newTries := s.tries + 1
    { state :=
        { s with tries := newTries,
                 solutionViewer := if newTries > 2 then true else s.solutionViewer },
      onCompleteCalls := [], lessonFinished := false }

/-- `handleSolutionButtonClick(reveal)` of `IdeComponent`. -/
def handleSolutionButtonClick (reveal : Bool) (s : TrackerState) : StepResult :=
  { state :=
      { s with showSolutionButton := !s.showSolutionButton,
               solutionViewer := reveal, tries := 0 },
    onCompleteCalls := [], lessonFinished := false }

/-- The modal close callback `isClose` of `IdeComponent`. -/
def closeModal (s : TrackerState) : StepResult :=
  { state := { s with isModalOpen := false },
    onCompleteCalls := [], lessonFinished := false }

/-- The tracker operations available in one session of the component. -/
inductive Op where
  | submit (exercise : String) (isCorrect : Bool)
  | toggleReveal (reveal : Bool)
  | closeModal
deriving Repr, DecidableEq

def applyOp : Op → TrackerState → StepResult
  | .submit exercise isCorrect, s => submissionHandler exercise isCorrect s
  | .toggleReveal reveal, s => handleSolutionButtonClick reveal s
  | .closeModal, s => closeModal s

/-- State after the first `k` operations of `ops`, starting from the initial
component state. -/
def stateAt (ops : List Op) : Nat → TrackerState
  | 0 => initialState
  | k + 1 =>
    match ops.get? k with
    | some op => (applyOp op (stateAt ops k)).state
    | none => stateAt ops k

/-- Whether the completion-dialog signal fires on step `k` of `ops`. -/
def firedAt (ops : List Op) (k : Nat) : Bool :=
  match ops.get? k with
  | some op => (applyOp op (stateAt ops k)).lessonFinished
  | none => false

/-- State after a sequence of incorrect submissions (one per listed exercise
name), starting from `s`. -/
def runIncorrect : List String → TrackerState → TrackerState
  | [], s => s
  | exercise :: rest, s => runIncorrect rest ((submissionHandler exercise false s).state)

/-! ### Exercise content lookup (`IdeComponent` `useMemo`)

`CODE_SOLUTIONS` and `CODE_EXERCISES` are static record-of-record objects,
modelled as association lists; the stored values are objects and hence
truthy, so the guard `CODE_SOLUTIONS[lessonKey] && CODE_EXERCISES[lessonKey]`
tests key presence in both. Inner reads yield `undefined` (`none`) on a
missing exercise name; the fallback branch yields actual empty strings. -/
def lookupContent (codeSolutions codeExercises : List (String × List (String × String)))
    (lessonKey exercise : String) : Option String × Option String :=
  match codeSolutions.lookup lessonKey, codeExercises.lookup lessonKey with
  | some sol, some exr => (sol.lookup exercise, exr.lookup exercise)
  | _, _ => (some "", some "")

/-! ### Helper lemmas -/

theorem applyCompletionEffect_completed (old new : TrackerState) :
    ((applyCompletionEffect old new).1).completedExerciseNumber =
      new.completedExerciseNumber := by
  unfold applyCompletionEffect; split <;> rfl

theorem applyCompletionEffect_tries (old new : TrackerState) :
    ((applyCompletionEffect old new).1).tries = new.tries := by
  unfold applyCompletionEffect; split <;> rfl

theorem applyCompletionEffect_solutionViewer (old new : TrackerState) :
    ((applyCompletionEffect old new).1).solutionViewer = new.solutionViewer := by
  unfold applyCompletionEffect; split <;> rfl

theorem applyCompletionEffect_fired_iff (old new : TrackerState) :
    ((applyCompletionEffect old new).2 = true) ↔
      (new.completedExerciseNumber ≠ old.completedExerciseNumber ∧
        new.completedExerciseNumber = 5) := by
  unfold applyCompletionEffect
  split
  · rename_i h
    exact iff_of_true rfl h
  · rename_i h
    exact iff_of_false (fun hh => Bool.noConfusion hh) h

theorem submissionHandler_false_state (exercise : String) (s : TrackerState) :
    (submissionHandler exercise false s).state =
      { s with tries := s.tries + 1,
               solutionViewer := if s.tries + 1 > 2 then true else s.solutionViewer } :=
  rfl

theorem submissionHandler_false_tries (exercise : String) (s : TrackerState) :
    ((submissionHandler exercise false s).state).tries = s.tries + 1 :=
  rfl

theorem submissionHandler_false_viewer (exercise : String) (s : TrackerState) :
    ((submissionHandler exercise false s).state).solutionViewer =
      (if s.tries + 1 > 2 then true else s.solutionViewer) :=
  rfl

theorem submissionHandler_false_completed (exercise : String) (s : TrackerState) :
    ((submissionHandler exercise false s).state).completedExerciseNumber =
      s.completedExerciseNumber :=
  rfl

theorem submissionHandler_true_nan (exercise : String) (s : TrackerState)
    (hn : exerciseNumber exercise = none) :
    ((submissionHandler exercise true s).state).completedExerciseNumber =
      s.completedExerciseNumber ∧
    (submissionHandler exercise true s).onCompleteCalls = [] := by
  simp [submissionHandler, hn, applyCompletionEffect_completed]

theorem submissionHandler_true_advance (exercise : String) (s : TrackerState)
    (n : Int) (hn : exerciseNumber exercise = some n)
    (hgt : s.completedExerciseNumber < n) :
    ((submissionHandler exercise true s).state).completedExerciseNumber = n ∧
    (submissionHandler exercise true s).onCompleteCalls = [n] := by
  simp [submissionHandler, hn, hgt, applyCompletionEffect_completed]

theorem submissionHandler_true_stay (exercise : String) (s : TrackerState)
    (n : Int) (hn : exerciseNumber exercise = some n)
    (hle : ¬(s.completedExerciseNumber < n)) :
    ((submissionHandler exercise true s).state).completedExerciseNumber =
      s.completedExerciseNumber ∧
    (submissionHandler exercise true s).onCompleteCalls = [] := by
  simp [submissionHandler, hn, hle, applyCompletionEffect_completed]

/-- Claim C5: a correct submission always resets the attempt counter to 0 and
clears the reveal flag, regardless of the prior tracker state. -/
theorem c5_correct_submission_resets (s : TrackerState) (exercise : String) :
    ((submissionHandler exercise true s).state).tries = 0 ∧
    ((submissionHandler exercise true s).state).solutionViewer = false := by
  unfold submissionHandler
  simp only [if_true]
  exact ⟨applyCompletionEffect_tries _ _, applyCompletionEffect_solutionViewer _ _⟩

/-- Claim C8: `handleSolutionButtonClick reveal` sets the reveal flag to
exactly the given value and resets the attempt counter to 0, in both
directions of the toggle. -/
theorem c8_toggle_reveal (s : TrackerState) (reveal : Bool) :
    ((handleSolutionButtonClick reveal s).state).solutionViewer = reveal ∧
    ((handleSolutionButtonClick reveal s).state).tries = 0 :=
  ⟨rfl, rfl⟩

/-- Claim C9: an incorrect submission leaves the completion counter unchanged
and never calls the completion notifier; its only state effects are the
attempt-counter increment and possibly setting the reveal flag. -/
theorem c9_incorrect_submission_frame (s : TrackerState) (exercise : String) :
    ((submissionHandler exercise false s).state).completedExerciseNumber =
      s.completedExerciseNumber ∧
    (submissionHandler exercise false s).onCompleteCalls = [] ∧
    ((submissionHandler exercise false s).state).tries = s.tries + 1 ∧
    ((submissionHandler exercise false s).state).solutionViewer =
      (if s.tries + 1 > 2 then true else s.solutionViewer) ∧
    ((submissionHandler exercise false s).state).showSolutionButton =
      s.showSolutionButton ∧
    ((submissionHandler exercise false s).state).isModalOpen = s.isModalOpen ∧
    (submissionHandler exercise false s).lessonFinished = false := by
  refine ⟨rfl, rfl, rfl, rfl, rfl, rfl, rfl⟩

/-- Claim C10: when the exercise name does not parse to a number (NaN), a
correct submission makes no completion call and leaves the counter unchanged,
while still resetting the attempt counter and clearing the reveal flag. -/
theorem c10_nan_exercise_name (s : TrackerState) (exercise : String)
    (h : exerciseNumber exercise = none) :
    (submissionHandler exercise true s).onCompleteCalls = [] ∧
    ((submissionHandler exercise true s).state).completedExerciseNumber =
      s.completedExerciseNumber ∧
    ((submissionHandler exercise true s).state).tries = 0 ∧
    ((submissionHandler exercise true s).state).solutionViewer = false := by
  obtain ⟨h1, h2⟩ := submissionHandler_true_nan exercise s h
  exact ⟨h2, h1, applyCompletionEffect_tries _ _,
    applyCompletionEffect_solutionViewer _ _⟩

theorem c10_witness :
    exerciseNumber "exercise" = none ∧
    ((submissionHandler "exercise" true initialState).onCompleteCalls = [] ∧
      ((submissionHandler "exercise" true initialState).state).completedExerciseNumber =
        initialState.completedExerciseNumber ∧
      ((submissionHandler "exercise" true initialState).state).tries = 0 ∧
      ((submissionHandler "exercise" true initialState).state).solutionViewer = false) :=
  ⟨by decide, c10_nan_exercise_name initialState "exercise" (by decide)⟩

/-- Claim C3: the completion counter is monotonically non-decreasing under
`submit`, and it changes only on a correct submission whose parsed exercise
index strictly exceeds the current counter value, in which case it becomes
that index. -/
theorem c3_completion_monotone (s : TrackerState) (exercise : String)
    (isCorrect : Bool) :
    s.completedExerciseNumber ≤
      ((submissionHandler exercise isCorrect s).state).completedExerciseNumber ∧
    (((submissionHandler exercise isCorrect s).state).completedExerciseNumber ≠
        s.completedExerciseNumber →
      isCorrect = true ∧ ∃ n, exerciseNumber exercise = some n ∧
        s.completedExerciseNumber < n ∧
        ((submissionHandler exercise isCorrect s).state).completedExerciseNumber = n) := by
  cases isCorrect with
  | false =>
    have h := submissionHandler_false_completed exercise s
    exact ⟨le_of_eq h.symm, fun hh => absurd h hh⟩
  | true =>
    rcases hn : exerciseNumber exercise with _ | n
    · obtain ⟨h1, -⟩ := submissionHandler_true_nan exercise s hn
      exact ⟨le_of_eq h1.symm, fun hh => absurd h1 hh⟩
    · by_cases hgt : s.completedExerciseNumber < n
      · obtain ⟨h1, -⟩ := submissionHandler_true_advance exercise s n hn hgt
        exact ⟨by omega, fun _ => ⟨rfl, n, rfl, hgt, h1⟩⟩
      · obtain ⟨h1, -⟩ := submissionHandler_true_stay exercise s n hn hgt
        exact ⟨le_of_eq h1.symm, fun hh => absurd h1 hh⟩

theorem c3_witness :
    initialState.completedExerciseNumber ≤
      ((submissionHandler "exercise1" true initialState).state).completedExerciseNumber ∧
    (((submissionHandler "exercise1" true initialState).state).completedExerciseNumber ≠
        initialState.completedExerciseNumber →
      true = true ∧ ∃ n, exerciseNumber "exercise1" = some n ∧
        initialState.completedExerciseNumber < n ∧
        ((submissionHandler "exercise1" true initialState).state).completedExerciseNumber = n) :=
  c3_completion_monotone initialState "exercise1" true

theorem runIncorrect_spec (exs : List String) (s : TrackerState) :
    (runIncorrect exs s).tries = s.tries + exs.length ∧
    ((runIncorrect exs s).solutionViewer = true ↔
      (s.solutionViewer = true ∨ (exs ≠ [] ∧ 2 < s.tries + exs.length))) := by
  induction exs generalizing s with
  | nil => simp [runIncorrect]
  | cons e rest ih =>
    rw [runIncorrect]
    obtain ⟨ht, hv⟩ := ih ((submissionHandler e false s).state)
    rw [submissionHandler_false_tries] at ht
    rw [submissionHandler_false_viewer, submissionHandler_false_tries] at hv
    constructor
    · rw [ht, List.length_cons]; omega
    · rw [hv, List.length_cons]
      constructor
      · rintro (h1 | ⟨-, h3⟩)
        · by_cases hcond : s.tries + 1 > 2
          · exact Or.inr ⟨List.cons_ne_nil _ _, by omega⟩
          · rw [if_neg hcond] at h1
            exact Or.inl h1
        · exact Or.inr ⟨List.cons_ne_nil _ _, by omega⟩
      · rintro (h1 | ⟨-, h3⟩)
        · by_cases hcond : s.tries + 1 > 2
          · exact Or.inl (if_pos hcond)
          · rw [if_neg hcond]
            exact Or.inl h1
        · by_cases hcond : s.tries + 1 > 2
          · exact Or.inl (if_pos hcond)
          · refine Or.inr ⟨?_, by omega⟩
            intro hre
            apply hcond
            subst hre
            simp only [List.length_nil] at h3
            omega

/-- Claim C2: starting from the initial tracker state, after any sequence of
incorrect submissions the attempt counter equals the number of submissions
and the reveal flag is true exactly when that count exceeds 2. -/
theorem c2_reveal_after_incorrect (exs : List String) :
    (runIncorrect exs initialState).tries = exs.length ∧
    ((runIncorrect exs initialState).solutionViewer = true ↔ 2 < exs.length) := by
  obtain ⟨ht, hv⟩ := runIncorrect_spec exs initialState
  refine ⟨by simpa [initialState] using ht, ?_⟩
  rw [hv]
  simp only [initialState]
  constructor
  · rintro (hh | ⟨-, hh⟩)
    · cases hh
    · simpa using hh
  · intro hh
    right
    refine ⟨?_, by simpa using hh⟩
    rintro rfl
    simp at hh

theorem c2_witness :
    (runIncorrect ["e1", "e2", "e3"] initialState).tries = 3 ∧
    ((runIncorrect ["e1", "e2", "e3"] initialState).solutionViewer = true ↔ 2 < 3) :=
  c2_reveal_after_incorrect ["e1", "e2", "e3"]

/-- Claim C6: when no lesson in the list has the requested identifier, the
lookup fails (the source throws on the missing match) instead of returning a
defaulted prev/next result. -/
theorem c6_resolve_missing_lesson (data : List Lesson) (lessonId : String)
    (h : ∀ lesson ∈ data, lesson.id ≠ lessonId) :
    resolve data lessonId = none := by
  have hfind : data.find? (fun lesson => lesson.id == lessonId) = none := by
    rw [List.find?_eq_none]
    intro l hl
    simpa using h l hl
  unfold resolve
  rw [hfind]

/-- The three-lesson list used in the spec's navigation example. -/
def lessonsABC : List Lesson :=
  [{ id := "a", index := 1, name := "A" },
   { id := "b", index := 2, name := "B" },
   { id := "c", index := 3, name := "C" }]

theorem c6_witness :
    (∀ lesson ∈ lessonsABC, lesson.id ≠ "z") ∧ resolve lessonsABC "z" = none :=
  ⟨by decide, c6_resolve_missing_lesson lessonsABC "z" (by decide)⟩

/-- Claim C1 counterexample: in the one-element list whose lesson carries
`index = 2`, the id `"a"` matches the lesson at list position 0, which is
both first and last, so the claim demands prev and next both null; the code
instead navigates by the stored `index` field and returns the lesson itself
as prev. -/
theorem c1_counterexample :
    resolve [{ id := "a", index := 2, name := "A" }] "a" =
      some (some { id := "a", index := 2, name := "A" }, none) ∧
    some (some ({ id := "a", index := 2, name := "A" } : Lesson),
        (none : Option Lesson)) ≠
      some ((none : Option Lesson), (none : Option Lesson)) := by
  constructor <;> decide

/-- Claim C1 (amended): when every lesson's `index` field equals one plus its
list position, resolving an id matched by the linear scan at position `i`
returns the list entries immediately around position `i`, with `none` at the
boundaries. -/
theorem c1_resolve_neighbors (data : List Lesson) (lessonId : String)
    (lesson : Lesson) (i : Nat) (hi : i < data.length)
    (hidx : ∀ k (hk : k < data.length), (data.get ⟨k, hk⟩).index = (k : Int) + 1)
    (hget : data.get ⟨i, hi⟩ = lesson)
    (hfind : data.find? (fun l => l.id == lessonId) = some lesson) :
    resolve data lessonId =
      some ((if i = 0 then none else data.get? (i - 1)), data.get? (i + 1)) := by
  have hlesson : lesson.index = (i : Int) + 1 := by
    rw [← hget]; exact hidx i hi
  unfold resolve
  rw [hfind]
  show some
      ((if lesson.index - 1 > 0 then jsGet data (lesson.index - 1 - 1) else none),
       (if lesson.index - 1 < (data.length : Int) - 1 then
          jsGet data (lesson.index - 1 + 1)
        else none)) = _
  rw [hlesson]
  have e1 : (i : Int) + 1 - 1 = (i : Int) := by ring
  rw [e1]
  refine congrArg some ?_
  refine Prod.ext ?_ ?_
  · show (if (i : Int) > 0 then jsGet data ((i : Int) - 1) else none) = _
    rcases Nat.eq_zero_or_pos i with rfl | hpos
    · norm_num
    · have hgt : (0 : Int) < (i : Int) := by exact_mod_cast hpos
      rw [if_pos hgt, if_neg (Nat.pos_iff_ne_zero.mp hpos)]
      unfold jsGet
      rw [if_neg (by omega)]
      congr 1
      omega
  · show (if (i : Int) < (data.length : Int) - 1 then jsGet data ((i : Int) + 1)
        else none) = _
    by_cases hlt : i + 1 < data.length
    · rw [if_pos (by omega)]
      unfold jsGet
      rw [if_neg (by omega)]
      congr 1
    · rw [if_neg (by omega)]
      exact (List.get?_eq_none.mpr (by omega)).symm

theorem c1_witness :
    resolve lessonsABC "b" =
      some ((if 1 = 0 then none else lessonsABC.get? 0), lessonsABC.get? 2) :=
  c1_resolve_neighbors lessonsABC "b" { id := "b", index := 2, name := "B" } 1
    (by decide) (by decide) (by decide) (by decide)

/-- Claim C7: when the lesson key is absent from either the solutions mapping
or the exercises mapping, the content lookup degrades to the empty string for
both solution and template instead of failing. -/
theorem c7_missing_content_defaults
    (codeSolutions codeExercises : List (String × List (String × String)))
    (lessonKey exercise : String)
    (h : codeSolutions.lookup lessonKey = none ∨
      codeExercises.lookup lessonKey = none) :
    lookupContent codeSolutions codeExercises lessonKey exercise =
      (some "", some "") := by
  unfold lookupContent
  rcases h with h | h
  · rw [h]
  · rw [h]
    cases codeSolutions.lookup lessonKey <;> rfl

theorem c7_witness :
    (List.lookup "lesson1" ([] : List (String × List (String × String))) = none ∨
      List.lookup "lesson1"
        ([("lesson1", [("exercise1", "x")])] :
          List (String × List (String × String))) = none) ∧
    lookupContent [] [("lesson1", [("exercise1", "x")])] "lesson1" "exercise1" =
      (some "", some "") :=
  ⟨Or.inl rfl,
    c7_missing_content_defaults [] [("lesson1", [("exercise1", "x")])]
      "lesson1" "exercise1" (Or.inl rfl)⟩

theorem applyOp_completed_le (op : Op) (s : TrackerState) :
    s.completedExerciseNumber ≤
      ((applyOp op s).state).completedExerciseNumber := by
  cases op with
  | submit exercise isCorrect =>
    show s.completedExerciseNumber ≤
      ((submissionHandler exercise isCorrect s).state).completedExerciseNumber
    cases isCorrect with
    | false => exact le_of_eq (submissionHandler_false_completed exercise s).symm
    | true =>
      rcases hn : exerciseNumber exercise with _ | n
      · exact le_of_eq (submissionHandler_true_nan exercise s hn).1.symm
      · by_cases hgt : s.completedExerciseNumber < n
        · have h1 := (submissionHandler_true_advance exercise s n hn hgt).1
          omega
        · exact le_of_eq (submissionHandler_true_stay exercise s n hn hgt).1.symm
  | toggleReveal reveal => exact le_refl _
  | closeModal => exact le_refl _

theorem applyOp_fired_iff (op : Op) (s : TrackerState) :
    ((applyOp op s).lessonFinished = true) ↔
      (((applyOp op s).state).completedExerciseNumber = 5 ∧
        s.completedExerciseNumber ≠ 5) := by
  cases op with
  | submit exercise isCorrect =>
    cases isCorrect with
    | false =>
      refine iff_of_false (fun hh => Bool.noConfusion hh) ?_
      rw [show ((applyOp (Op.submit exercise false) s).state).completedExerciseNumber =
        s.completedExerciseNumber from submissionHandler_false_completed exercise s]
      rintro ⟨h5, hne⟩
      exact hne h5
    | true =>
      show ((applyCompletionEffect s _).2 = true) ↔ _
      rw [applyCompletionEffect_fired_iff]
      rw [show ((applyOp (Op.submit exercise true) s).state).completedExerciseNumber =
        ((applyCompletionEffect s _).1).completedExerciseNumber from rfl]
      rw [applyCompletionEffect_completed]
      constructor
      · rintro ⟨hne, h5⟩
        exact ⟨h5, fun hh => hne (h5.trans hh.symm)⟩
      · rintro ⟨h5, hne⟩
        exact ⟨fun hh => hne (hh ▸ h5), h5⟩
  | toggleReveal reveal =>
    refine iff_of_false (fun hh => Bool.noConfusion hh) ?_
    rintro ⟨h5, hne⟩
    exact hne h5
  | closeModal =>
    refine iff_of_false (fun hh => Bool.noConfusion hh) ?_
    rintro ⟨h5, hne⟩
    exact hne h5

theorem stateAt_le_succ (ops : List Op) (k : Nat) :
    (stateAt ops k).completedExerciseNumber ≤
      (stateAt ops (k + 1)).completedExerciseNumber := by
  have hs : stateAt ops (k + 1) =
      (match ops.get? k with
        | some op => (applyOp op (stateAt ops k)).state
        | none => stateAt ops k) := rfl
  rw [hs]
  cases h : ops.get? k with
  | some op => exact applyOp_completed_le op (stateAt ops k)
  | none => exact le_refl _

theorem stateAt_mono (ops : List Op) {j k : Nat} (h : j ≤ k) :
    (stateAt ops j).completedExerciseNumber ≤
      (stateAt ops k).completedExerciseNumber := by
  induction k with
  | zero =>
    cases Nat.le_zero.mp h
    exact le_refl _
  | succ m ih =>
    rcases Nat.eq_or_lt_of_le h with rfl | hlt
    · exact le_refl _
    · exact le_trans (ih (Nat.lt_succ_iff.mp hlt)) (stateAt_le_succ ops m)

/-- Claim C4: over every operation sequence of a session, the completion
dialog opens on step `k` exactly when the completion counter transitions to 5
at step `k`, and it fires on at most one step of the sequence: never before
the counter reaches 5, and never again afterwards. -/
theorem c4_lesson_finished_once (ops : List Op) :
    (∀ k, firedAt ops k = true ↔
      ((stateAt ops k).completedExerciseNumber ≠ 5 ∧
        (stateAt ops (k + 1)).completedExerciseNumber = 5)) ∧
    (∀ j k, j < k → firedAt ops j = true → firedAt ops k = true → False) := by
  have hchar : ∀ k, firedAt ops k = true ↔
      ((stateAt ops k).completedExerciseNumber ≠ 5 ∧
        (stateAt ops (k + 1)).completedExerciseNumber = 5) := by
    intro k
    have hs : stateAt ops (k + 1) =
        (match ops.get? k with
          | some op => (applyOp op (stateAt ops k)).state
          | none => stateAt ops k) := rfl
    cases h : ops.get? k with
    | none =>
      rw [hs, h]
      refine iff_of_false (fun hh => ?_) (fun hh => hh.1 hh.2)
      rw [firedAt, h] at hh
      exact Bool.noConfusion hh
    | some op =>
      rw [hs, h]
      have hf : firedAt ops k = (applyOp op (stateAt ops k)).lessonFinished := by
        rw [firedAt, h]
      rw [hf, applyOp_fired_iff]
      exact ⟨fun hh => ⟨hh.2, hh.1⟩, fun hh => ⟨hh.2, hh.1⟩⟩
  refine ⟨hchar, ?_⟩
  intro j k hjk hj hk
  obtain ⟨-, hj2⟩ := (hchar j).mp hj
  obtain ⟨hk1, hk2⟩ := (hchar k).mp hk
  have hm1 : (stateAt ops (j + 1)).completedExerciseNumber ≤
      (stateAt ops k).completedExerciseNumber := stateAt_mono ops hjk
  have hm2 := stateAt_le_succ ops k
  omega

theorem c4_witness :
    firedAt [Op.submit "exercise5" true] 0 = true :=
  ((c4_lesson_finished_once [Op.submit "exercise5" true]).1 0).mpr
    ⟨by decide, by decide⟩

end LevelUp
